import Mathlib

/-!
Shallow embedding of the CBOR encoder (episode9/cbor.go) and verification of
its specification.  Byte output is modelled as `List Nat` (each entry < 256),
machine integers as `Nat`/`Int` with explicit masks, and IEEE-754 values by
their 64-bit patterns.  Every encoder function returns the bytes it wrote
together with an optional error, mirroring Go's `error` plumbing: the sink
(`bytes.Buffer`-like) never fails, so the only error produced inside the model
is `ErrNotImplemented`.
-/

namespace CBOR

/-- Bytes written to the sink, most significant first. -/
abbrev Bytes := List Nat

/-- Error values: `ErrNotImplemented` is the only error the encoder itself
creates (`var ErrNotImplemented = errors.New("Not Implemented")`). -/
inductive Err where
  | notImplemented
deriving DecidableEq

/-- Result of an encoder method: the bytes it wrote and an optional error. -/
abbrev R := Bytes × Option Err

/-- Go-style sequencing: run `a`; if it errored, stop (bytes written so far
stay written); otherwise append the bytes of `b` and keep `b`'s error. -/
def seqR (a b : R) : R :=
  match a with
  | (bs, some e) => (bs, some e)
  | (bs, none) => (bs ++ b.1, b.2)

/-- Big-endian byte serialisation at a fixed width, as done by
`binary.Write(e.w, binary.BigEndian, v)` on a `w`-byte unsigned integer
(the value is implicitly truncated to `w` bytes, matching Go's integer
casts at the call sites). -/
def beBytes : Nat → Nat → Bytes
  | 0, _ => []
  | w + 1, v => beBytes w (v / 256) ++ [v % 256]

/-! Constant tables from the bottom of cbor.go. -/

def majorPositiveInteger : Nat := 0
def majorNegativeInteger : Nat := 1
def majorByteString : Nat := 2
def majorUnicodeString : Nat := 3
def majorArray : Nat := 4
def majorMap : Nat := 5
def majorSimpleValue : Nat := 7

def minorInt8 : Nat := 24
def minorInt16 : Nat := 25
def minorInt32 : Nat := 26
def minorInt64 : Nat := 27

def minorFloat16 : Nat := 25
def minorFloat32 : Nat := 26
def minorFloat64 : Nat := 27

def simpleValueFalse : Nat := 20
def simpleValueTrue : Nat := 21
def simpleValueNil : Nat := 22

/-- `writeHeader(major, minor)`: one byte `byte((major << 5) | minor)`. -/
def writeHeader (major minor : Nat) : R :=
  ([((major <<< 5) % 256) ||| (minor % 256)], none)

/-- `writeHeaderInteger(major, minor, v)`: the header byte followed by the
big-endian bytes of `v`; `width` is the byte width of the Go integer type the
call site casts `v` to (1, 2, 4 or 8). -/
def writeHeaderInteger (major minor width v : Nat) : R :=
  seqR (writeHeader major minor) (beBytes width v, none)

/-- `writeInteger(major, i)`: canonical minimal-width integer encoding. -/
def writeInteger (major i : Nat) : R :=
  if i ≤ 23 then writeHeader major (i % 256)
  else if i ≤ 0xff then writeHeaderInteger major minorInt8 1 i
  else if i ≤ 0xffff then writeHeaderInteger major minorInt16 2 i
  else if i ≤ 0xffffffff then writeHeaderInteger major minorInt32 4 i
  else writeHeaderInteger major minorInt64 8 i

/-- `writeByteString(s)`: length prefix under the byte-string major type,
then the raw bytes verbatim. -/
def writeByteString (s : Bytes) : R :=
  seqR (writeInteger majorByteString s.length) (s, none)

/-- `writeUnicodeString(s)`: length prefix under the text-string major type
(the length is the UTF-8 byte count since Go `len` on a string counts bytes),
then the raw bytes. -/
def writeUnicodeString (s : Bytes) : R :=
  seqR (writeInteger majorUnicodeString s.length) (s, none)

/-! IEEE-754 constants from cbor.go. -/

def float16ExpBits : Nat := 5
def float16FracBits : Nat := 10
def float16ExpBias : Nat := 15
def float32ExpBitsC : Nat := 8
def float32FracBits : Nat := 23
def float64ExpBits : Nat := 11
def float64ExpBias : Nat := 1023
def float64FracBits : Nat := 52

/-- Minimum number of trailing zeros needed in the fractional (16-bit). -/
def float16MinZeros : Nat := float64FracBits - float16FracBits
/-- Minimum number of trailing zeros needed in the fractional (32-bit). -/
def float32MinZeros : Nat := float64FracBits - float32FracBits

def expMask : Nat := (1 <<< float64ExpBits) - 1
def fracMask : Nat := (1 <<< float64FracBits) - 1

/-! Bit-pattern views of a float64 (`math.Float64bits` is the identity in this
model: a float64 value is represented by its 64-bit pattern). -/

/-- Biased 11-bit exponent field of a float64 pattern. -/
def f64ExpField (b : Nat) : Nat := (b >>> float64FracBits) &&& expMask

/-- 52-bit mantissa field of a float64 pattern. -/
def f64Frac (b : Nat) : Nat := b &&& fracMask

/-- `math.Signbit`: the top bit of the pattern. -/
def f64SignBit (b : Nat) : Bool := (b >>> 63) &&& 1 == 1

/-- `input == 0` on float64: both +0 and -0 (exponent and mantissa fields 0). -/
def isZeroF64 (b : Nat) : Bool := f64ExpField b == 0 && f64Frac b == 0

/-- `math.IsInf(input, 0)`: exponent field all ones, mantissa 0. -/
def isInfF64 (b : Nat) : Bool := f64ExpField b == expMask && f64Frac b == 0

/-- `math.IsNaN(input)`: exponent field all ones, mantissa nonzero. -/
def isNaNF64 (b : Nat) : Bool := f64ExpField b == expMask && f64Frac b != 0

/-- `unpackFloat64(f)`: unbiased exponent and 52-bit mantissa field. -/
def unpackFloat64 (b : Nat) : Int × Nat :=
  ((((b >>> float64FracBits) &&& expMask : Nat) : Int) - (float64ExpBias : Int),
   b &&& fracMask)

/-- Fuel-driven helper for `trailingZeros64`. -/
def tzAux : Nat → Nat → Nat
  | 0, _ => 0
  | fuel + 1, n => if n % 2 = 1 then 0 else tzAux fuel (n / 2) + 1

/-- `bits.TrailingZeros64`: number of trailing zero bits; 64 for input 0. -/
def trailingZeros64 (n : Nat) : Nat := if n = 0 then 64 else tzAux 64 n

/-- Fuel-driven helper for `bitLen`. -/
def bitLenAux : Nat → Nat → Nat
  | 0, _ => 0
  | fuel + 1, n => if n = 0 then 0 else bitLenAux fuel (n / 2) + 1

/-- Number of bits needed to represent `n` (0 for 0); inputs stay below
2^64 so 64 units of fuel always suffice. -/
def bitLen (n : Nat) : Nat := bitLenAux 64 n

/-- Round `m / 2^s` to the nearest integer, ties to even (the rounding used
by IEEE-754 conversions). -/
def rne (m s : Nat) : Nat :=
  if s = 0 then m
  else
    let q := m >>> s
    let r := m &&& ((1 <<< s) - 1)
    let half := 1 <<< (s - 1)
    if half < r ∨ (r = half ∧ q % 2 = 1) then q + 1 else q

/-- Semantics of Go's `float32(input)` on a float64 bit pattern: IEEE-754
binary64 → binary32 conversion with round-to-nearest-even, returning the
32-bit pattern.  NaN inputs are quieted (payload detail irrelevant: the
encoder only reaches this conversion for non-NaN inputs, and a NaN never
compares equal to anything). -/
def f32OfF64 (b : Nat) : Nat :=
  let s := (b >>> 63) &&& 1
  let E := (b >>> 52) &&& 2047
  let F := b &&& (2 ^ 52 - 1)
  if E = 2047 then
    if F = 0 then (s <<< 31) ||| (255 <<< 23)
    else (s <<< 31) ||| (255 <<< 23) ||| (1 <<< 22) ||| (F >>> 29)
  else
    let m := if E = 0 then F else 2 ^ 52 ||| F
    let e : Int := if E = 0 then -1074 else (E : Int) - 1075
    if m = 0 then s <<< 31
    else
      let eps : Int := e + bitLen m - 1
      if -126 ≤ eps then
        let shift : Int := (bitLen m : Int) - 24
        let M := if shift ≤ 0 then m <<< (-shift).toNat else rne m shift.toNat
        let M' := if M = 2 ^ 24 then 2 ^ 23 else M
        let eps' := if M = 2 ^ 24 then eps + 1 else eps
        if 127 < eps' then (s <<< 31) ||| (255 <<< 23)
        else (s <<< 31) ||| ((eps' + 127).toNat <<< 23) ||| (M' - 2 ^ 23)
      else
        let sh : Int := -(e + 149)
        let M := if sh ≤ 0 then m <<< (-sh).toNat else rne m sh.toNat
        if 2 ^ 23 ≤ M then (s <<< 31) ||| (1 <<< 23) ||| (M - 2 ^ 23)
        else (s <<< 31) ||| M

/-- Semantics of Go's `float64(w)` on a float32 bit pattern: the exact
binary32 → binary64 conversion, returning the 64-bit pattern. -/
def f64OfF32 (w : Nat) : Nat :=
  let s := (w >>> 31) &&& 1
  let E := (w >>> 23) &&& 255
  let F := w &&& (2 ^ 23 - 1)
  if E = 255 then
    if F = 0 then (s <<< 63) ||| (2047 <<< 52)
    else (s <<< 63) ||| (2047 <<< 52) ||| (F <<< 29)
  else if E = 0 then
    if F = 0 then s <<< 63
    else
      let eps : Int := (bitLen F : Int) - 1 - 149
      (s <<< 63) ||| ((eps + 1023).toNat <<< 52) ||| ((F <<< (53 - bitLen F)) - 2 ^ 52)
  else (s <<< 63) ||| ((E + 1023 - 127) <<< 52) ||| (F <<< 29)

/-- IEEE-754 equality `==` on float64 bit patterns: false whenever either
side is NaN, true for +0 == -0, otherwise bit equality (distinct non-NaN,
non-zero patterns denote distinct values). -/
def f64Eq (a b : Nat) : Bool :=
  if isNaNF64 a || isNaNF64 b then false
  else if isZeroF64 a && isZeroF64 b then true
  else a == b

/-- Go's `float64(float32(input)) == input`, the exactness guard used by
`writeFloat` to decide whether the 32-bit form is lossless. -/
def f32RoundTrips (b : Nat) : Bool := f64Eq (f64OfF32 (f32OfF64 b)) b

/-- `writeFloat16(negative, exp, frac)`: header `0xf9` then a big-endian
16-bit word assembled from the sign, the 5-bit exponent field `exp` (shifted
inside a uint16, hence the mod) and the top 10 bits of the 52-bit mantissa
`frac` (the uint16 cast of `frac >> 42`). -/
def writeFloat16 (negative : Bool) (exp frac : Nat) : R :=
  seqR (writeHeader majorSimpleValue minorFloat16)
    (beBytes 2
      (((if negative then 1 <<< 15 else 0) |||
        ((exp <<< float16FracBits) % 65536)) |||
       ((frac >>> (float64FracBits - float16FracBits)) % 65536)), none)

/-- `writeFloat(input)` on the float64 bit pattern `b`.  The Go `switch` has
a `fallthrough` from the subnormal-16 case into the float32 case: when
`-exp-15 == 9` and fewer than 42 trailing zeros, control reaches the float32
body without evaluating its guard — hence the disjunction in the fourth
branch below. -/
def writeFloat (b : Nat) : R :=
  if isZeroF64 b then writeFloat16 (f64SignBit b) 0 0
  else if isInfF64 b then writeFloat16 (f64SignBit b) ((1 <<< float16ExpBits) - 1) 0
  else
    let exp := (unpackFloat64 b).1
    let frac := (unpackFloat64 b).2
    let trailingZeros := min (trailingZeros64 frac) float64FracBits
    if isNaNF64 b then writeFloat16 (f64SignBit b) ((1 <<< float16ExpBits) - 1) frac
    else if -14 ≤ exp ∧ exp ≤ 15 ∧ float16MinZeros ≤ trailingZeros then
      writeFloat16 (f64SignBit b) (exp + float16ExpBias).toNat frac
    else if -exp - float16ExpBias = float16FracBits - 1 ∧
        float64FracBits - float16FracBits ≤ trailingZeros then
      writeFloat16 (f64SignBit b) 0 ((frac ||| (1 <<< (float64FracBits + 1))) >>> (float16FracBits + 1))
    else if -exp - float16ExpBias = float16FracBits - 1 ∨ f32RoundTrips b then
      seqR (writeHeader majorSimpleValue minorFloat32) (beBytes 4 (f32OfF64 b), none)
    else
      seqR (writeHeader majorSimpleValue minorFloat64) (beBytes 8 b, none)

/-! The runtime-value classification.  `reflect.Value` dispatch becomes a
closed inductive: each constructor corresponds to one `Kind` group of the
`encode` switch.  `.bytes` covers slices *and* fixed-size arrays whose
element kind is `Uint8` (the `reflect.Array` case copies into a slice and
falls through; `x.Type().Elem().Kind() == reflect.Uint8` then selects
`writeByteString`), `.array` covers the remaining sequence containers.
`.ptr`/`.pNil` cover pointers (and interfaces, which unwrap the same way),
`.invalid` is the naked `nil`, and `.unsupported` any kind reaching the
final `return ErrNotImplemented` (channels, functions, ...).  A struct field
is a triple (declared name, cbor-tag tokens, value); ASCII strings are byte
lists and a tag string is pre-split at commas into its token list. -/
inductive Value where
  | invalid
  | pNil
  | ptr (v : Value)
  | bool (b : Bool)
  | int (i : Int)
  | uint (u : Nat)
  | bytes (bs : List Nat)
  | array (vs : List Value)
  | str (s : List Nat)
  | map (ps : List (Value × Value))
  | struct (fs : List (List Nat × List (List Nat) × Value))
  | float (b : Nat)
  | unsupported

/-- The token `-` (skip directive) as a byte list. -/
def dashTok : List Nat := [0x2d]

/-- The token `omitempty` as a byte list. -/
def omitemptyTok : List Nat := [0x6f, 0x6d, 0x69, 0x74, 0x65, 0x6d, 0x70, 0x74, 0x79]

/-- Modelled from the spec: `parseTag` (the external tag-string collaborator,
not part of src/).  The tag is a comma-separated directive list; the first
token is the rename target and the remaining tokens are the options.  On the
pre-split token list this is head and tail. -/
def parseTag (tag : List (List Nat)) : List Nat × List (List Nat) :=
  (tag.headD [], tag.tail)

/-- Modelled from the spec: `isEmptyValue` (external helper, not part of
src/): true on the type's zero/empty value — numeric zero (float zero of
either sign included), empty sequence, empty container, false, nil. -/
def isEmptyValue : Value → Bool
  | .bool b => !b
  | .int i => i == 0
  | .uint u => u == 0
  | .bytes bs => bs.isEmpty
  | .array vs => vs.isEmpty
  | .str s => s.isEmpty
  | .map ps => ps.isEmpty
  | .pNil => true
  | .float b => isZeroF64 b
  | _ => false

/-- The survivor computation of `writeStruct` (its first loop): drop fields
tagged exactly `-`, drop fields with the `omitempty` option whose value is
empty, and resolve each surviving field's key (tag name, or declared name if
the tag name is empty). -/
def structFields : List (List Nat × List (List Nat) × Value) → List (List Nat × Value)
  | [] => []
  | (name, tag, v) :: fs =>
    if tag = [dashTok] then structFields fs
    else if (parseTag tag).2.contains omitemptyTok && isEmptyValue v then structFields fs
    else ((if (parseTag tag).1 = [] then name else (parseTag tag).1), v) :: structFields fs

mutual
/-- The `encode` dispatcher (`func (e *Encoder) encode(x reflect.Value) error`),
one case per `reflect.Kind` group. -/
def encode : Value → R
  | .invalid => writeHeader majorSimpleValue simpleValueNil
  | .pNil => writeHeader majorSimpleValue simpleValueNil
  | .ptr v => encode v
  | .bool b => writeHeader majorSimpleValue (if b then simpleValueTrue else simpleValueFalse)
  | .int i =>
    if i < 0 then writeInteger majorNegativeInteger (-(i + 1)).toNat
    else writeInteger majorPositiveInteger i.toNat
  | .uint u => writeInteger majorPositiveInteger u
  | .bytes bs => writeByteString bs
  | .array vs => seqR (writeInteger majorArray vs.length) (encodeElems vs)
  | .str s => writeUnicodeString s
  | .map ps => seqR (writeInteger majorMap ps.length) (encodePairs ps)
  | .struct fs => seqR (writeInteger majorMap (structFields fs).length) (encodeFields fs)
  | .float b => writeFloat b
  | .unsupported => ([], some .notImplemented)

/-- Body of `writeArray`'s loop: encode each element, stopping at the first
error. -/
def encodeElems : List Value → R
  | [] => ([], none)
  | v :: vs => seqR (encode v) (encodeElems vs)

/-- Body of `writeMap`'s loop: `e.encode(key); e.encode(v.MapIndex(key))` —
the error results of both calls are discarded and the loop always finishes
and returns nil. -/
def encodePairs : List (Value × Value) → R
  | [] => ([], none)
  | (k, v) :: ps => ((encode k).1 ++ (encode v).1 ++ (encodePairs ps).1, none)

/-- Body of `writeStruct`'s second loop, fused with the field filtering (the
source materialises `structFields` first and then iterates; the emitted
bytes and error are identical, see `encodeFields_eq_kv`): for each surviving
field write the resolved key then the value, stopping at the first error. -/
def encodeFields : List (List Nat × List (List Nat) × Value) → R
  | [] => ([], none)
  | (name, tag, v) :: fs =>
    if tag = [dashTok] then encodeFields fs
    else if (parseTag tag).2.contains omitemptyTok && isEmptyValue v then encodeFields fs
    else
      seqR (writeUnicodeString (if (parseTag tag).1 = [] then name else (parseTag tag).1))
        (seqR (encode v) (encodeFields fs))
end

/-- `Encode(v)` simply dispatches (`return e.encode(reflect.ValueOf(v))`). -/
def Encode (v : Value) : R := encode v

/-- Reference form of `writeStruct`'s emission loop over the materialised
survivor list: key as text string, then the value, concatenated. -/
def kvBytes : List (List Nat × Value) → Bytes
  | [] => []
  | (k, v) :: kvs => (writeUnicodeString k).1 ++ (encode v).1 ++ kvBytes kvs

/-- A chain of `k` non-nil pointers on top of `v`. -/
def ptrChain : Nat → Value → Value
  | 0, v => v
  | k + 1, v => .ptr (ptrChain k v)

/-- IEEE-754 binary16 → binary64 interpretation of a 16-bit pattern,
used to state the (hypothetical, per the spec) decode of the encoder's
float16 output. -/
def f64OfF16 (w : Nat) : Nat :=
  let s := (w >>> 15) &&& 1
  let E := (w >>> 10) &&& 31
  let F := w &&& 1023
  if E = 31 then
    if F = 0 then (s <<< 63) ||| (2047 <<< 52)
    else (s <<< 63) ||| (2047 <<< 52) ||| (F <<< 42)
  else if E = 0 then
    if F = 0 then s <<< 63
    else
      let eps : Int := (bitLen F : Int) - 1 - 24
      (s <<< 63) ||| ((eps + 1023).toNat <<< 52) ||| ((F <<< (53 - bitLen F)) - 2 ^ 52)
  else (s <<< 63) ||| ((E + 1023 - 15) <<< 52) ||| (F <<< 42)

/-- Unbiased exponent of a float64 pattern, as `unpackFloat64` computes it. -/
def f64Exp (b : Nat) : Int := (unpackFloat64 b).1

/-- The capped trailing-zero count `writeFloat` computes for a pattern. -/
def f64Tz (b : Nat) : Nat := min (trailingZeros64 (f64Frac b)) float64FracBits

/-- The sign contribution to the 16-bit word `writeFloat16` assembles. -/
def sgn16 (b : Nat) : Nat := if f64SignBit b then 32768 else 0

/-- Following the claim's words only (for comparison with the code): the
width the claimed minimal-width selection rule picks for a finite non-zero
float64 pattern — 16 iff `-14 ≤ exp ≤ 15` and at least 42 trailing zeros,
else 32 iff `-126 ≤ exp ≤ 127` and at least 29 trailing zeros, else 64. -/
def claimedFloatWidth (b : Nat) : Nat :=
  let exp := (unpackFloat64 b).1
  let tz := min (trailingZeros64 (f64Frac b)) 52
  if -14 ≤ exp ∧ exp ≤ 15 ∧ 42 ≤ tz then 16
  else if -126 ≤ exp ∧ exp ≤ 127 ∧ 29 ≤ tz then 32
  else 64

/-! Helper lemmas (shared infrastructure; the per-claim theorems come after). -/

theorem seqR_none (a : Bytes) (b : R) : seqR (a, none) b = (a ++ b.1, b.2) := rfl

theorem writeInteger_err (major i : Nat) : (writeInteger major i).2 = none := by
  unfold writeInteger writeHeaderInteger writeHeader
  repeat' split
  all_goals rfl

theorem beBytes_length (w : Nat) : ∀ v, (beBytes w v).length = w := by
  induction w with
  | zero => intro v; rfl
  | succ w ih => intro v; simp [beBytes, ih]

theorem beBytes_foldl (w : Nat) :
    ∀ v, (beBytes w v).foldl (fun a x => 256 * a + x) 0 = v % 2 ^ (8 * w) := by
  induction w with
  | zero => intro v; simp [beBytes, Nat.mod_one]
  | succ w ih =>
    intro v
    have h2 : (2 : Nat) ^ (8 * (w + 1)) = 256 * 2 ^ (8 * w) := by
      rw [Nat.mul_succ, Nat.pow_add]; ring
    simp only [beBytes, List.foldl_append, ih, List.foldl_cons, List.foldl_nil]
    rw [h2, Nat.mod_mul]
    ring

theorem writeHeader_eq (major minor : Nat) (hm : major ≤ 7) (hn : minor < 32) :
    writeHeader major minor = ([32 * major + minor], none) := by
  unfold writeHeader
  have h1 : major <<< 5 = 2 ^ 5 * major := by rw [Nat.shiftLeft_eq]; ring
  have h2 : (major <<< 5) % 256 = 2 ^ 5 * major := by
    rw [h1]; exact Nat.mod_eq_of_lt (by omega)
  have h3 : minor % 256 = minor := Nat.mod_eq_of_lt (by omega)
  have h4 : minor < 2 ^ 5 := by have : (2 : Nat) ^ 5 = 32 := by norm_num
                                omega
  rw [h2, h3, ← Nat.mul_add_lt_is_or h4 major]

theorem writeFloat16_bytes (neg : Bool) (exp frac : Nat) (he : exp < 32) (hf : frac < 2 ^ 52) :
    writeFloat16 neg exp frac =
      ([0xf9] ++ beBytes 2 ((if neg then 32768 else 0) + 1024 * exp + frac >>> 42), none) := by
  unfold writeFloat16
  have hh : writeHeader majorSimpleValue minorFloat16 = ([0xf9], none) := by decide
  rw [hh, seqR_none]
  have e1 : (exp <<< float16FracBits) % 65536 = 1024 * exp := by
    have : exp <<< float16FracBits = 1024 * exp := by
      rw [show float16FracBits = 10 from rfl, Nat.shiftLeft_eq]; ring
    rw [this]; exact Nat.mod_eq_of_lt (by omega)
  have e3 : frac >>> (float64FracBits - float16FracBits) = frac >>> 42 := by
    norm_num [float64FracBits, float16FracBits]
  have e4 : frac >>> 42 < 2 ^ 10 := by
    rw [Nat.shiftRight_eq_div_pow]
    apply Nat.div_lt_of_lt_mul
    calc frac < 2 ^ 52 := hf
    _ = 2 ^ 42 * 2 ^ 10 := by norm_num
    _ = 2 ^ 10 * 2 ^ 42 := by ring
  have e5 : (frac >>> 42) % 65536 = frac >>> 42 := by
    have : (2 : Nat) ^ 10 = 1024 := by norm_num
    exact Nat.mod_eq_of_lt (by omega)
  rw [e1, e3, e5]
  cases neg with
  | false =>
    simp only [Bool.false_eq_true, if_false, Nat.zero_or]
    have h10 : 1024 * exp = 2 ^ 10 * exp := by norm_num
    rw [h10, ← Nat.mul_add_lt_is_or e4 exp]
    norm_num
  | true =>
    simp only [if_true]
    have hs : (1 : Nat) <<< 15 = 32768 := by decide
    have h15 : 1024 * exp < 2 ^ 15 := by
      have : (2 : Nat) ^ 15 = 32768 := by norm_num
      omega
    have hA : (32768 : Nat) ||| 1024 * exp = 32768 + 1024 * exp := by
      have := Nat.mul_add_lt_is_or h15 1
      calc (32768 : Nat) ||| 1024 * exp = 2 ^ 15 * 1 ||| 1024 * exp := by norm_num
      _ = 2 ^ 15 * 1 + 1024 * exp := (Nat.mul_add_lt_is_or h15 1).symm
      _ = 32768 + 1024 * exp := by norm_num
    have hB : 32768 + 1024 * exp = 2 ^ 10 * (32 + exp) := by ring
    rw [hs, hA, hB, ← Nat.mul_add_lt_is_or e4 (32 + exp)]

theorem fracMask_eq : fracMask = 2 ^ 52 - 1 := rfl

theorem f64Frac_lt (b : Nat) : f64Frac b < 2 ^ 52 := by
  have h := Nat.and_le_right (n := b) (m := fracMask)
  have : fracMask = 2 ^ 52 - 1 := rfl
  unfold f64Frac
  omega

theorem unpackFloat64_eq (b : Nat) :
    unpackFloat64 b = ((f64ExpField b : Int) - 1023, f64Frac b) := rfl

theorem eta_none {x : R} (h : x.2 = none) : x = (x.1, none) := by rw [← h]

theorem writeByteString_eq (s : Bytes) :
    writeByteString s = ((writeInteger majorByteString s.length).1 ++ s, none) := by
  unfold writeByteString
  rw [eta_none (writeInteger_err _ _), seqR_none]

theorem writeUnicodeString_eq (s : Bytes) :
    writeUnicodeString s = ((writeInteger majorUnicodeString s.length).1 ++ s, none) := by
  unfold writeUnicodeString
  rw [eta_none (writeInteger_err _ _), seqR_none]

theorem structFields_drop_skip (pre post : List (List Nat × List (List Nat) × Value))
    (name : List Nat) (tag : List (List Nat)) (v : Value) (h : tag = [dashTok]) :
    structFields (pre ++ (name, tag, v) :: post) = structFields (pre ++ post) := by
  induction pre with
  | nil => simp only [List.nil_append, structFields]; rw [if_pos h]
  | cons p pre ih =>
    obtain ⟨n, t, w⟩ := p
    simp only [List.cons_append, structFields, List.append_eq]
    rw [ih]

theorem structFields_drop_omit (pre post : List (List Nat × List (List Nat) × Value))
    (name : List Nat) (tag : List (List Nat)) (v : Value)
    (hc : (parseTag tag).2.contains omitemptyTok = true) (he : isEmptyValue v = true) :
    structFields (pre ++ (name, tag, v) :: post) = structFields (pre ++ post) := by
  have hne : tag ≠ [dashTok] := by
    intro hd; rw [hd] at hc; simp [parseTag] at hc
  induction pre with
  | nil =>
    simp only [List.nil_append, structFields]
    rw [if_neg hne, if_pos (by rw [hc, he]; rfl)]
  | cons p pre ih =>
    obtain ⟨n, t, w⟩ := p
    simp only [List.cons_append, structFields, List.append_eq]
    rw [ih]

theorem encodeFields_drop_skip (pre post : List (List Nat × List (List Nat) × Value))
    (name : List Nat) (tag : List (List Nat)) (v : Value) (h : tag = [dashTok]) :
    encodeFields (pre ++ (name, tag, v) :: post) = encodeFields (pre ++ post) := by
  induction pre with
  | nil => simp only [List.nil_append, encodeFields]; rw [if_pos h]
  | cons p pre ih =>
    obtain ⟨n, t, w⟩ := p
    simp only [List.cons_append, encodeFields, List.append_eq]
    rw [ih]

theorem encodeFields_drop_omit (pre post : List (List Nat × List (List Nat) × Value))
    (name : List Nat) (tag : List (List Nat)) (v : Value)
    (hc : (parseTag tag).2.contains omitemptyTok = true) (he : isEmptyValue v = true) :
    encodeFields (pre ++ (name, tag, v) :: post) = encodeFields (pre ++ post) := by
  have hne : tag ≠ [dashTok] := by
    intro hd; rw [hd] at hc; simp [parseTag] at hc
  induction pre with
  | nil =>
    simp only [List.nil_append, encodeFields]
    rw [if_neg hne, if_pos (by rw [hc, he]; rfl)]
  | cons p pre ih =>
    obtain ⟨n, t, w⟩ := p
    simp only [List.cons_append, encodeFields, List.append_eq]
    rw [ih]

theorem encodeFields_eq_kv : ∀ fs, (∀ p ∈ structFields fs, (encode p.2).2 = none) →
    encodeFields fs = (kvBytes (structFields fs), none) := by
  intro fs
  induction fs with
  | nil => intro _; rfl
  | cons f fs ih =>
    obtain ⟨n, t, w⟩ := f
    intro h
    simp only [structFields] at h
    simp only [encodeFields, structFields]
    by_cases h1 : t = [dashTok]
    · rw [if_pos h1] at h
      rw [if_pos h1, if_pos h1]
      exact ih h
    · rw [if_neg h1] at h
      rw [if_neg h1, if_neg h1]
      by_cases h2 : ((parseTag t).2.contains omitemptyTok && isEmptyValue w) = true
      · rw [if_pos h2] at h
        rw [if_pos h2, if_pos h2]
        exact ih h
      · rw [if_neg h2] at h
        rw [if_neg h2, if_neg h2]
        have hw : (encode w).2 = none :=
          h _ (List.mem_cons_self _ _)
        have hrest : ∀ p ∈ structFields fs, (encode p.2).2 = none :=
          fun p hp => h p (List.mem_cons_of_mem _ hp)
        rw [ih hrest, eta_none hw, writeUnicodeString_eq, seqR_none, seqR_none]
        simp [kvBytes, writeUnicodeString_eq, List.append_assoc]

/-! The claim theorems. -/

/-- Claim C4: canonical minimal-width integer encoding — each magnitude range
uses exactly the listed header/payload shape, the payload really is the
big-endian representation at the stated byte width, the full 64-bit range is
covered with no error path, and every length prefix (byte string, text
string, array, map) goes through the same `writeInteger` with its major
type. -/
theorem integer_minimal_width (major i : Nat) (hm : major ≤ 7) (hi : i < 2 ^ 64) :
    (i ≤ 23 → writeInteger major i = ([32 * major + i], none)) ∧
    (24 ≤ i → i ≤ 255 → writeInteger major i = ([32 * major + 24, i], none)) ∧
    (256 ≤ i → i ≤ 65535 → writeInteger major i = ([32 * major + 25] ++ beBytes 2 i, none)) ∧
    (65536 ≤ i → i ≤ 4294967295 →
      writeInteger major i = ([32 * major + 26] ++ beBytes 4 i, none)) ∧
    (4294967296 ≤ i → writeInteger major i = ([32 * major + 27] ++ beBytes 8 i, none)) ∧
    (∀ w v, (beBytes w v).length = w) ∧
    (∀ w v, (beBytes w v).foldl (fun a x => 256 * a + x) 0 = v % 2 ^ (8 * w)) ∧
    (∀ s : Bytes, writeByteString s = ((writeInteger majorByteString s.length).1 ++ s, none)) ∧
    (∀ s : Bytes, writeUnicodeString s
        = ((writeInteger majorUnicodeString s.length).1 ++ s, none)) ∧
    (∀ vs : List Value, encode (.array vs)
        = ((writeInteger majorArray vs.length).1 ++ (encodeElems vs).1, (encodeElems vs).2)) ∧
    (∀ ps : List (Value × Value), encode (.map ps)
        = ((writeInteger majorMap ps.length).1 ++ (encodePairs ps).1, (encodePairs ps).2)) := by
  refine ⟨?_, ?_, ?_, ?_, ?_, beBytes_length, beBytes_foldl,
    writeByteString_eq, writeUnicodeString_eq, ?_, ?_⟩
  · intro h
    unfold writeInteger
    rw [if_pos h, Nat.mod_eq_of_lt (by omega)]
    exact writeHeader_eq major i hm (by omega)
  · intro h1 h2
    unfold writeInteger writeHeaderInteger
    rw [if_neg (by omega), if_pos (by omega),
      writeHeader_eq major minorInt8 hm (by norm_num [minorInt8]), seqR_none]
    simp [beBytes, minorInt8]
    omega
  · intro h1 h2
    unfold writeInteger writeHeaderInteger
    rw [if_neg (by omega), if_neg (by omega), if_pos (by omega),
      writeHeader_eq major minorInt16 hm (by norm_num [minorInt16]), seqR_none]
    norm_num [minorInt16]
  · intro h1 h2
    unfold writeInteger writeHeaderInteger
    rw [if_neg (by omega), if_neg (by omega), if_neg (by omega), if_pos (by omega),
      writeHeader_eq major minorInt32 hm (by norm_num [minorInt32]), seqR_none]
    norm_num [minorInt32]
  · intro h1
    unfold writeInteger writeHeaderInteger
    rw [if_neg (by omega), if_neg (by omega), if_neg (by omega), if_neg (by omega),
      writeHeader_eq major minorInt64 hm (by norm_num [minorInt64]), seqR_none]
    norm_num [minorInt64]
  · intro vs
    simp only [encode]
    rw [eta_none (writeInteger_err _ _), seqR_none]
  · intro ps
    simp only [encode]
    rw [eta_none (writeInteger_err _ _), seqR_none]

/-- Witness for C4 at the spec's own example points. -/
theorem integer_minimal_width_witness :
    writeInteger 0 23 = ([0x17], none) ∧ writeInteger 0 24 = ([0x18, 0x18], none) ∧
    writeInteger 0 65535 = ([0x19, 0xff, 0xff], none) ∧
    writeInteger 0 65536 = ([0x1a, 0x00, 0x01, 0x00, 0x00], none) ∧
    writeInteger 0 (2 ^ 64 - 1)
      = ([0x1b, 0xff, 0xff, 0xff, 0xff, 0xff, 0xff, 0xff, 0xff], none) := by
  refine ⟨?_, ?_, ?_, ?_, ?_⟩
  · rw [(integer_minimal_width 0 23 (by norm_num) (by norm_num)).1 (by norm_num)]
  · rw [(integer_minimal_width 0 24 (by norm_num) (by norm_num)).2.1 (by norm_num) (by norm_num)]
  · rw [(integer_minimal_width 0 65535 (by norm_num) (by norm_num)).2.2.1
      (by norm_num) (by norm_num)]
    decide
  · rw [(integer_minimal_width 0 65536 (by norm_num) (by norm_num)).2.2.2.1
      (by norm_num) (by norm_num)]
    decide
  · rw [(integer_minimal_width 0 (2 ^ 64 - 1) (by norm_num) (by norm_num)).2.2.2.2.1
      (by norm_num)]
    decide

/-- Claim C6: a negative signed integer `n` (down to the minimum 64-bit value)
is encoded under the negative-integer major type with magnitude `-(n+1)`,
which always fits a uint64 (no overflow), with no error; a non-negative one
under the unsigned major type with value `n`. -/
theorem negative_integer_offset (n : Int) (hlo : -(2 ^ 63) ≤ n) (hneg : n < 0) :
    encode (.int n) = writeInteger majorNegativeInteger (-(n + 1)).toNat ∧
    ((-(n + 1)).toNat : Int) = -(n + 1) ∧ (-(n + 1)).toNat < 2 ^ 63 ∧
    (encode (.int n)).2 = none ∧
    (∀ m : Int, 0 ≤ m → encode (.int m) = writeInteger majorPositiveInteger m.toNat) := by
  have h1 : encode (.int n) = writeInteger majorNegativeInteger (-(n + 1)).toNat := by
    simp only [encode]
    rw [if_pos hneg]
  refine ⟨h1, Int.toNat_of_nonneg (by omega), by omega, ?_, ?_⟩
  · rw [h1]; exact writeInteger_err _ _
  · intro m hm
    simp only [encode]
    rw [if_neg (by omega)]

/-- Witness for C6 at the spec's example points and the 64-bit minimum. -/
theorem negative_integer_offset_witness :
    encode (.int (-1)) = ([0x20], none) ∧
    encode (.int (-1000)) = ([0x39, 0x03, 0xe7], none) ∧
    encode (.int (-(2 ^ 63)))
      = ([0x3b, 0x7f, 0xff, 0xff, 0xff, 0xff, 0xff, 0xff, 0xff], none) := by
  refine ⟨?_, ?_, ?_⟩
  · rw [(negative_integer_offset (-1) (by norm_num) (by norm_num)).1]
    decide
  · rw [(negative_integer_offset (-1000) (by norm_num) (by norm_num)).1]
    decide
  · rw [(negative_integer_offset (-(2 ^ 63)) (by norm_num) (by norm_num)).1]
    decide

/-- Claim C9: a byte sequence (a slice, or a fixed-size array copied into a
slice by the `reflect.Array` case, whose element kind is `Uint8`) is encoded
as a byte string: minimal-width length prefix under major type 2 followed by
the raw bytes verbatim — never per-element items — and the empty byte
sequence is the single header byte 0x40. -/
theorem byte_sequence_classification :
    (∀ bs : List Nat, encode (.bytes bs)
        = ((writeInteger majorByteString bs.length).1 ++ bs, none)) ∧
    encode (.bytes []) = ([0x40], none) := by
  constructor
  · intro bs
    simp only [encode]
    exact writeByteString_eq bs
  · simp only [encode]
    rw [writeByteString_eq]
    decide

/-- Claim C10: a top-level value of unclassified shape (the switch's default:
channels, functions, ...) yields `ErrNotImplemented` and writes nothing. -/
theorem unsupported_top_level :
    Encode .unsupported = ([], some Err.notImplemented) ∧
    (Encode .unsupported).1 = [] := by
  constructor <;> simp [Encode, encode]

/-- Claim C8: a depth-k chain of non-nil pointers encodes exactly like the
value underneath, and a chain ending in nil encodes as the null simple
value 0xf6 regardless of depth. -/
theorem pointer_chain :
    (∀ (k : Nat) (v : Value), encode (ptrChain k v) = encode v) ∧
    (∀ k : Nat, encode (ptrChain k .pNil) = ([0xf6], none)) := by
  have h : ∀ (k : Nat) (v : Value), encode (ptrChain k v) = encode v := by
    intro k
    induction k with
    | zero => intro v; rfl
    | succ k ih =>
      intro v
      simp only [ptrChain, encode]
      exact ih v
  refine ⟨h, fun k => ?_⟩
  rw [h k]
  simp only [encode]
  decide

/-- Claim C5 (failing-input evaluation): `writeMap` discards the error of the
value encoder — a map whose value is unsupported still returns success (nil
error), with the dangling key written and the value silently missing, even
though encoding that value alone errors. -/
theorem map_swallows_value_error :
    encode (.map [(.str [0x61], .unsupported)]) = ([0xa1, 0x61, 0x61], none) ∧
    (encode .unsupported).2 = some Err.notImplemented := by
  constructor
  · simp only [encode, encodePairs]
    decide
  · simp only [encode]

/-- Claim C7: record encoding — a field tagged `-` never appears regardless
of value; a field with the `omitempty` option whose value is empty never
appears; the map length prefix counts the surviving fields only; surviving
fields are emitted in declaration order as the resolved key (tag name, or
declared name when the tag name is empty) written as a text string followed
by the recursively encoded value. -/
theorem record_omission (pre post : List (List Nat × List (List Nat) × Value))
    (name : List Nat) (tag : List (List Nat)) (v : Value) :
    (tag = [dashTok] →
      encode (.struct (pre ++ (name, tag, v) :: post)) = encode (.struct (pre ++ post))) ∧
    ((parseTag tag).2.contains omitemptyTok = true → isEmptyValue v = true →
      encode (.struct (pre ++ (name, tag, v) :: post)) = encode (.struct (pre ++ post))) ∧
    (∀ fs, (encode (.struct fs)).1
        = (writeInteger majorMap (structFields fs).length).1 ++ (encodeFields fs).1) ∧
    (∀ fs, (∀ p ∈ structFields fs, (encode p.2).2 = none) →
      encodeFields fs = (kvBytes (structFields fs), none)) ∧
    (tag ≠ [dashTok] →
      ¬((parseTag tag).2.contains omitemptyTok = true ∧ isEmptyValue v = true) →
      structFields ((name, tag, v) :: post)
        = (((if (parseTag tag).1 = [] then name else (parseTag tag).1), v) ::
            structFields post)) := by
  refine ⟨?_, ?_, ?_, encodeFields_eq_kv, ?_⟩
  · intro h
    simp only [encode]
    rw [structFields_drop_skip pre post name tag v h,
      encodeFields_drop_skip pre post name tag v h]
  · intro hc he
    simp only [encode]
    rw [structFields_drop_omit pre post name tag v hc he,
      encodeFields_drop_omit pre post name tag v hc he]
  · intro fs
    simp only [encode]
    rw [eta_none (writeInteger_err _ _), seqR_none]
  · intro h1 h2
    simp only [structFields]
    rw [if_neg h1, if_neg (by simpa [Bool.and_eq_true] using h2)]

/-- Witness for C7: the spec's end-to-end record — fields renamed `a` and
`b`, plus a zero-valued `omitempty` field that is dropped — encodes as a
2-entry map. -/
theorem record_omission_witness :
    encode (.struct [([0x41], [[0x61]], .int 1),
                     ([0x42], [[0x62]], .array [.int 2, .int 3]),
                     ([0x4f], [[], omitemptyTok], .int 0)])
      = ([0xa2, 0x61, 0x61, 0x01, 0x61, 0x62, 0x82, 0x02, 0x03], none) := by
  have e : [([0x41], [[0x61]], Value.int 1),
            ([0x42], [[0x62]], Value.array [.int 2, .int 3]),
            ([0x4f], [[], omitemptyTok], Value.int 0)]
      = [([0x41], [[0x61]], Value.int 1), ([0x42], [[0x62]], Value.array [.int 2, .int 3])]
        ++ ([0x4f], [[], omitemptyTok], Value.int 0) :: [] := rfl
  have h := (record_omission
      [([0x41], [[0x61]], Value.int 1), ([0x42], [[0x62]], Value.array [.int 2, .int 3])]
      [] [0x4f] [[], omitemptyTok] (Value.int 0)).2.1 (by decide) (by decide)
  rw [e, h]
  simp only [encode, encodeFields, encodeElems, structFields, List.append_nil]
  decide

theorem expMask_eq : expMask = 2047 := rfl

theorem writeFloat_16n (b : Nat) (hz : isZeroF64 b = false) (hi : isInfF64 b = false)
    (hn : isNaNF64 b = false)
    (hc : -14 ≤ f64Exp b ∧ f64Exp b ≤ 15 ∧ 42 ≤ f64Tz b) :
    writeFloat b = writeFloat16 (f64SignBit b) (f64Exp b + 15).toNat (f64Frac b) := by
  simp only [writeFloat, hz, hi, hn, Bool.false_eq_true, if_false]
  split
  next => rfl
  next h => exact absurd hc h

theorem writeFloat_16s (b : Nat) (hz : isZeroF64 b = false) (hi : isInfF64 b = false)
    (hn : isNaNF64 b = false)
    (h4 : ¬(-14 ≤ f64Exp b ∧ f64Exp b ≤ 15 ∧ 42 ≤ f64Tz b))
    (hc : -f64Exp b - 15 = 9 ∧ 42 ≤ f64Tz b) :
    writeFloat b = writeFloat16 (f64SignBit b) 0 ((f64Frac b ||| (1 <<< 53)) >>> 11) := by
  simp only [writeFloat, hz, hi, hn, Bool.false_eq_true, if_false]
  split
  next h => exact absurd h h4
  next =>
    split
    next => rfl
    next h => exact absurd hc h

theorem writeFloat_32 (b : Nat) (hz : isZeroF64 b = false) (hi : isInfF64 b = false)
    (hn : isNaNF64 b = false)
    (h4 : ¬(-14 ≤ f64Exp b ∧ f64Exp b ≤ 15 ∧ 42 ≤ f64Tz b))
    (h5 : ¬(-f64Exp b - 15 = 9 ∧ 42 ≤ f64Tz b))
    (hc : -f64Exp b - 15 = 9 ∨ f32RoundTrips b = true) :
    writeFloat b = ([0xfa] ++ beBytes 4 (f32OfF64 b), none) := by
  simp only [writeFloat, hz, hi, hn, Bool.false_eq_true, if_false]
  split
  next h => exact absurd h h4
  next =>
    split
    next h => exact absurd h h5
    next =>
      split
      next => rfl
      next h => exact absurd hc h

theorem writeFloat_64 (b : Nat) (hz : isZeroF64 b = false) (hi : isInfF64 b = false)
    (hn : isNaNF64 b = false)
    (h4 : ¬(-14 ≤ f64Exp b ∧ f64Exp b ≤ 15 ∧ 42 ≤ f64Tz b))
    (h5 : ¬(-f64Exp b - 15 = 9 ∧ 42 ≤ f64Tz b))
    (h6 : ¬(-f64Exp b - 15 = 9 ∨ f32RoundTrips b = true)) :
    writeFloat b = ([0xfb] ++ beBytes 8 b, none) := by
  simp only [writeFloat, hz, hi, hn, Bool.false_eq_true, if_false]
  split
  next h => exact absurd h h4
  next =>
    split
    next h => exact absurd h h5
    next =>
      split
      next h => exact absurd h h6
      next => rfl

theorem writeFloat_nanCase (b : Nat) (hz : isZeroF64 b = false) (hi : isInfF64 b = false)
    (hn : isNaNF64 b = true) :
    writeFloat b = writeFloat16 (f64SignBit b) ((1 <<< float16ExpBits) - 1) (f64Frac b) := by
  simp only [writeFloat, hz, hi, hn, Bool.false_eq_true, if_false]
  split
  next => rfl
  next h => exact absurd trivial h

theorem notZero_of_hyp {b : Nat} (hnz : ¬(f64ExpField b = 0 ∧ f64Frac b = 0)) :
    isZeroF64 b = false := by
  cases hzc : isZeroF64 b with
  | false => rfl
  | true =>
    exact absurd (by simpa [isZeroF64, Bool.and_eq_true, beq_iff_eq] using hzc) hnz

theorem notInf_of_hyp {b : Nat} (hfin : f64ExpField b ≠ 2047) : isInfF64 b = false := by
  cases hic : isInfF64 b with
  | false => rfl
  | true =>
    have h : f64ExpField b = expMask ∧ f64Frac b = 0 := by
      simpa [isInfF64, Bool.and_eq_true, beq_iff_eq] using hic
    exact absurd (h.1.trans expMask_eq) hfin

theorem notNaN_of_hyp {b : Nat} (hfin : f64ExpField b ≠ 2047) : isNaNF64 b = false := by
  cases hic : isNaNF64 b with
  | false => rfl
  | true =>
    have h : f64ExpField b = expMask ∧ f64Frac b ≠ 0 := by
      simpa [isNaNF64, Bool.and_eq_true, beq_iff_eq] using hic
    exact absurd (h.1.trans expMask_eq) hfin

/-- Claim C1 (failing input evaluation): for 1.5·2^-24 — pattern
0x3E78000000000000, finite, non-zero, 51 trailing mantissa zeros — writeFloat
takes the float16-subnormal path and emits f9 00 01, which decodes to 2^-24
(pattern 0x3E70000000000000), a different non-NaN value: mantissa bits are
silently dropped even though the value round-trips exactly through float32. -/
theorem float16_subnormal_loses_precision :
    writeFloat 0x3E78000000000000 = ([0xf9, 0x00, 0x01], none) ∧
    f64OfF16 0x0001 = 0x3E70000000000000 ∧
    isNaNF64 0x3E78000000000000 = false ∧
    f32RoundTrips 0x3E78000000000000 = true :=
  ⟨by decide, by decide, by decide, by decide⟩

/-- Claim C2 (counterexample): for 2^-24 — pattern 0x3E70000000000000,
unbiased exponent -24, 52 trailing mantissa zeros — the claimed selection
rule picks the 32-bit width (16-bit requires -14 ≤ exp), but writeFloat
emits the 3-byte float16 subnormal form f9 00 01. -/
theorem claimed_width_mismatch :
    claimedFloatWidth 0x3E70000000000000 = 32 ∧
    writeFloat 0x3E70000000000000 = ([0xf9, 0x00, 0x01], none) :=
  ⟨by decide, by decide⟩

/-- Claim C2 (amended): the width selection writeFloat actually implements
for finite non-zero inputs — 16-bit normal iff -14 ≤ exp ≤ 15 with ≥ 42
trailing zeros (sign bit, 5-bit exponent exp+15, top 10 mantissa bits);
16-bit subnormal when exp = -24 with ≥ 42 trailing zeros (exponent field 0,
mantissa field always 1); when exp = -24 with < 42 trailing zeros the 32-bit
form is emitted with no exactness guard (the Go fallthrough); otherwise
32-bit iff the value round-trips through float32 (which also covers float32
subnormals, beyond the claimed -126 ≤ exp ≤ 127 ∧ tz ≥ 29); otherwise the
original 64 bits verbatim. -/
theorem float_width_selection (b : Nat)
    (hfin : f64ExpField b ≠ 2047) (hnz : ¬(f64ExpField b = 0 ∧ f64Frac b = 0)) :
    ((-14 ≤ f64Exp b ∧ f64Exp b ≤ 15 ∧ 42 ≤ f64Tz b) →
      writeFloat b = ([0xf9] ++
        beBytes 2 (sgn16 b + 1024 * (f64Exp b + 15).toNat + f64Frac b >>> 42), none)) ∧
    ((f64Exp b = -24 ∧ 42 ≤ f64Tz b) →
      writeFloat b = ([0xf9] ++ beBytes 2 (sgn16 b + 1), none)) ∧
    ((f64Exp b = -24 ∧ f64Tz b < 42) →
      writeFloat b = ([0xfa] ++ beBytes 4 (f32OfF64 b), none)) ∧
    ((¬(-14 ≤ f64Exp b ∧ f64Exp b ≤ 15 ∧ 42 ≤ f64Tz b) ∧ f64Exp b ≠ -24 ∧
        f32RoundTrips b = true) →
      writeFloat b = ([0xfa] ++ beBytes 4 (f32OfF64 b), none)) ∧
    ((¬(-14 ≤ f64Exp b ∧ f64Exp b ≤ 15 ∧ 42 ≤ f64Tz b) ∧ f64Exp b ≠ -24 ∧
        f32RoundTrips b = false) →
      writeFloat b = ([0xfb] ++ beBytes 8 b, none)) := by
  have hz := notZero_of_hyp hnz
  have hi := notInf_of_hyp hfin
  have hn := notNaN_of_hyp hfin
  refine ⟨?_, ?_, ?_, ?_, ?_⟩
  · intro hc
    rw [writeFloat_16n b hz hi hn hc,
      writeFloat16_bytes _ _ _ (by omega) (f64Frac_lt b)]
    rfl
  · intro hc
    have h4 : ¬(-14 ≤ f64Exp b ∧ f64Exp b ≤ 15 ∧ 42 ≤ f64Tz b) := by
      intro h; omega
    rw [writeFloat_16s b hz hi hn h4 ⟨by omega, hc.2⟩]
    have hlt : (f64Frac b ||| (1 <<< 53)) >>> 11 < 2 ^ 52 := by
      have h54 : f64Frac b ||| (1 <<< 53) < 2 ^ 54 := by
        apply Nat.or_lt_two_pow
        · have := f64Frac_lt b
          omega
        · norm_num [Nat.shiftLeft_eq]
      rw [Nat.shiftRight_eq_div_pow]
      apply Nat.div_lt_of_lt_mul
      calc f64Frac b ||| (1 <<< 53) < 2 ^ 54 := h54
      _ ≤ 2 ^ 52 * 2 ^ 11 := by norm_num
    rw [writeFloat16_bytes _ _ _ (by norm_num) hlt]
    have hone : ((f64Frac b ||| (1 <<< 53)) >>> 11) >>> 42 = 1 := by
      rw [← Nat.shiftRight_add]
      have hfrac : f64Frac b < 2 ^ 53 := by
        have := f64Frac_lt b
        omega
      have hor : f64Frac b ||| (1 <<< 53) = 2 ^ 53 + f64Frac b := by
        rw [Nat.or_comm]
        have h1 : (1 : Nat) <<< 53 = 2 ^ 53 * 1 := by rw [Nat.shiftLeft_eq]; ring
        rw [h1, ← Nat.mul_add_lt_is_or hfrac 1]
        ring
      rw [hor, Nat.shiftRight_eq_div_pow]
      apply Nat.div_eq_of_lt_le <;> omega
    rw [hone]
    rfl
  · intro hc
    have h4 : ¬(-14 ≤ f64Exp b ∧ f64Exp b ≤ 15 ∧ 42 ≤ f64Tz b) := by
      intro h; omega
    have h5 : ¬(-f64Exp b - 15 = 9 ∧ 42 ≤ f64Tz b) := by
      intro h; omega
    exact writeFloat_32 b hz hi hn h4 h5 (Or.inl (by omega))
  · rintro ⟨h4, hne, hrt⟩
    have h5 : ¬(-f64Exp b - 15 = 9 ∧ 42 ≤ f64Tz b) := by
      intro h; omega
    exact writeFloat_32 b hz hi hn h4 h5 (Or.inr hrt)
  · rintro ⟨h4, hne, hrt⟩
    have h5 : ¬(-f64Exp b - 15 = 9 ∧ 42 ≤ f64Tz b) := by
      intro h; omega
    have h6 : ¬(-f64Exp b - 15 = 9 ∨ f32RoundTrips b = true) := by
      rintro (h | h)
      · omega
      · rw [hrt] at h
        exact Bool.false_ne_true h
    exact writeFloat_64 b hz hi hn h4 h5 h6

/-- Witness for C2 at the spec's example points: 1.0 (16-bit), 100000.0
(32-bit), 1.1 (64-bit). -/
theorem float_width_selection_witness :
    writeFloat 0x3FF0000000000000 = ([0xf9, 0x3c, 0x00], none) ∧
    writeFloat 0x40F86A0000000000 = ([0xfa, 0x47, 0xc3, 0x50, 0x00], none) ∧
    writeFloat 0x3FF199999999999A
      = ([0xfb, 0x3f, 0xf1, 0x99, 0x99, 0x99, 0x99, 0x99, 0x9a], none) := by
  refine ⟨?_, ?_, ?_⟩
  · rw [(float_width_selection 0x3FF0000000000000 (by decide) (by decide)).1
      ⟨by decide, by decide, by decide⟩]
    decide
  · rw [(float_width_selection 0x40F86A0000000000 (by decide) (by decide)).2.2.2.1
      ⟨by decide, by decide, by decide⟩]
    decide
  · rw [(float_width_selection 0x3FF199999999999A (by decide) (by decide)).2.2.2.2
      ⟨by decide, by decide, by decide⟩]
    decide

/-- Claim C3 (counterexample): the NaN pattern 0x7FF0000000000001 (payload
only in the low mantissa bits) is encoded with a ZERO mantissa field: the
output f9 7c 00 is byte-identical to the encoding of +Infinity, refuting
"a non-zero mantissa field" for every NaN input. -/
theorem nan_low_payload_encodes_as_infinity :
    isNaNF64 0x7FF0000000000001 = true ∧
    writeFloat 0x7FF0000000000001 = ([0xf9, 0x7c, 0x00], none) ∧
    writeFloat 0x7FF0000000000001 = writeFloat 0x7FF0000000000000 :=
  ⟨by decide, by decide, by decide⟩

/-- Claim C3 (amended): zeros of either sign and the infinities encode
exactly as claimed; every NaN encodes as float16 with exponent field 31,
sign bit copied, and mantissa field equal to the top 10 bits of the input's
52-bit mantissa — non-zero exactly when those top bits are non-zero (as for
the standard quiet NaN). -/
theorem special_float_values :
    writeFloat 0x0000000000000000 = ([0xf9, 0x00, 0x00], none) ∧
    writeFloat 0x8000000000000000 = ([0xf9, 0x80, 0x00], none) ∧
    writeFloat 0x7FF0000000000000 = ([0xf9, 0x7c, 0x00], none) ∧
    writeFloat 0xFFF0000000000000 = ([0xf9, 0xfc, 0x00], none) ∧
    (∀ b : Nat, isNaNF64 b = true →
      writeFloat b = ([0xf9] ++ beBytes 2 (sgn16 b + 0x7C00 + f64Frac b >>> 42), none)) := by
  refine ⟨by decide, by decide, by decide, by decide, ?_⟩
  intro b hb
  have hfin2 : f64ExpField b = 2047 ∧ f64Frac b ≠ 0 := by
    simpa [isNaNF64, Bool.and_eq_true, beq_iff_eq, bne_iff_ne, expMask_eq] using hb
  have hz : isZeroF64 b = false := by
    simp [isZeroF64, hfin2.1]
  have hi : isInfF64 b = false := by
    simp [isInfF64, beq_iff_eq, hfin2.2]
  rw [writeFloat_nanCase b hz hi hb,
    writeFloat16_bytes _ _ _ (by decide) (f64Frac_lt b)]
  have h31 : (1024 : Nat) * ((1 <<< float16ExpBits) - 1) = 0x7C00 := by decide
  rw [h31]
  rfl

/-- Witness for C3's NaN clause at the standard quiet NaN pattern. -/
theorem special_float_values_witness :
    writeFloat 0x7FF8000000000001 = ([0xf9, 0x7e, 0x00], none) := by
  rw [special_float_values.2.2.2.2 0x7FF8000000000001 (by decide)]
  decide

end CBOR
